import Mathlib

/-!
# Verification of the European Defense Stocks Tracker core logic

Shallow embedding of the two source files of the repository:

* `src/unnamed/part_000` — the single-proxy variant: `findClosestPrice`,
  `calculatePerformance`, `fetchPerformanceSinceDate`, `updateStockRow`
  formatting.
* `src/app.js` — the multi-proxy variant: `fetchYahooData` /
  `fetchYahooDataByPeriod` endpoint fallback, `fetchStockPerformance`
  per-window computation, and its own `fetchPerformanceSinceDate`.

JavaScript numbers are modelled as rationals (`ℚ`); the absent price in a
close array is `Option.none` (JS `null`).  Where the JS semantics of
out-of-range array access (`undefined`) or `null`-coercion in arithmetic is
load-bearing, it is modelled explicitly with `JsVal` / `JsNum`.  Network
responses are inputs: each relay endpoint contributes either a failure
(network error or non-success HTTP status — both make the loop `continue`)
or a response body string.
-/

set_option autoImplicit false

/-- A JavaScript value as it can appear when reading an element of a close
array: out-of-range access yields `undef` (JS `undefined`), a data gap is
`jsNull` (JS `null`), otherwise a number. -/
inductive JsVal where
  | undef
  | jsNull
  | num (q : ℚ)
deriving DecidableEq, Repr

/-- JS truthiness of a `JsVal`: `undefined` and `null` are falsy, a number
is truthy iff it is nonzero. -/
def jsTruthyVal : JsVal → Bool
  | .undef => false
  | .jsNull => false
  | .num q => q != 0

/-- Numeric content of a `JsVal`; only meaningful under `jsTruthyVal`. -/
def JsVal.numVal : JsVal → ℚ
  | .undef => 0
  | .jsNull => 0
  | .num q => q

/-- Conversion applied by JS arithmetic: `null` coerces to `0`,
`undefined` to NaN (modelled as `Option.none`). -/
def JsVal.toNumber : JsVal → Option ℚ
  | .undef => none
  | .jsNull => some 0
  | .num q => some q

/-- Result of a JS floating-point expression: either a finite number
(modelled exactly as a rational) or a non-finite artifact
(`Infinity`, `-Infinity` or `NaN`). -/
inductive JsNum where
  | num (q : ℚ)
  | special
deriving DecidableEq, Repr

/-- The JS expression `((current - base) / base) * 100` with JS coercions:
`null` coerces to 0, `undefined` gives NaN, and division by zero gives a
non-finite result. -/
def jsPctChange (current base : JsVal) : JsNum :=
  match current.toNumber, base.toNumber with
  | some c, some b => if b = 0 then .special else .num ((c - b) / b * 100)
  | _, _ => .special

/-- Reading `closes[i]` in JS: out of range is `undefined`. -/
def closeAt (closes : List (Option ℚ)) (i : Nat) : JsVal :=
  match closes[i]? with
  | none => .undef
  | some none => .jsNull
  | some (some q) => .num q

/-- Reading `closes[closes.length - 1]` in JS: `undefined` on an empty
array (index `-1`), else the literal last element. -/
def jsLastElem (closes : List (Option ℚ)) : JsVal :=
  match closes.getLast? with
  | none => .undef
  | some none => .jsNull
  | some (some q) => .num q

/-! ## JSON values and a model of `JSON.parse`

The source calls the platform `JSON.parse` (directly and through
`response.json()`).  We model the JSON value space and a parser for the
grammar fragment the quote API uses: `null`, booleans, decimal numbers
without exponents, strings with the common escapes, arrays and objects.
A parse failure models the `SyntaxError` thrown by `JSON.parse` (which the
source catches, making the fallback loop continue). -/

inductive Json where
  | null
  | bool (b : Bool)
  | num (q : ℚ)
  | str (s : String)
  | arr (elems : List Json)
  | obj (fields : List (String × Json))

/-- The `{` character (written by code to keep JSON literals readable). -/
def lbrace : Char := Char.ofNat 123

/-- The `}` character. -/
def rbrace : Char := Char.ofNat 125

/-- Skip JSON whitespace. -/
def skipWs : List Char → List Char
  | [] => []
  | c :: cs => if c = ' ' || c = '\n' || c = '\t' || c = '\r' then skipWs cs else c :: cs

/-- Body of a JSON string after the opening quote; handles the escapes
`\"`, `\\`, `\/`, `\n`, `\t`, `\r`.  Fuelled by the remaining length. -/
def parseStringChars : Nat → List Char → Option (List Char × List Char)
  | 0, _ => none
  | _ + 1, [] => none
  | fuel + 1, c :: cs =>
    if c = '"' then some ([], cs)
    else if c = '\\' then
      match cs with
      | e :: cs2 =>
        match (if e = '"' then some '"'
               else if e = '\\' then some '\\'
               else if e = '/' then some '/'
               else if e = 'n' then some '\n'
               else if e = 't' then some '\t'
               else if e = 'r' then some '\r'
               else none) with
        | some ec =>
          match parseStringChars fuel cs2 with
          | some (s, r) => some (ec :: s, r)
          | none => none
        | none => none
      | [] => none
    else
      match parseStringChars fuel cs with
      | some (s, r) => some (c :: s, r)
      | none => none

/-- Decimal value of a digit list. -/
def digitsVal (ds : List Char) : Nat :=
  ds.foldl (fun a c => a * 10 + (c.toNat - 48)) 0

/-- Split off a maximal prefix of digits. -/
def takeDigits : List Char → List Char × List Char
  | [] => ([], [])
  | c :: cs =>
    if c.isDigit then
      match takeDigits cs with
      | (ds, rest) => (c :: ds, rest)
    else ([], c :: cs)

/-- JSON number: optional minus, digits, optional fraction. -/
def parseNumber (cs : List Char) : Option (Json × List Char) :=
  match (match cs with
         | c :: rest => if c = '-' then (true, rest) else (false, cs)
         | [] => (false, cs)) with
  | (neg, cs1) =>
    match takeDigits cs1 with
    | ([], _) => none
    | (ds, rest) =>
      match rest with
      | c :: rest2 =>
        if c = '.' then
          match takeDigits rest2 with
          | ([], _) => none
          | (fs, rest3) =>
            some (Json.num ((if neg then -1 else 1) *
              ((digitsVal ds : ℚ) + (digitsVal fs : ℚ) / (10 : ℚ) ^ fs.length)), rest3)
        else some (Json.num (((if neg then -(digitsVal ds : Int) else (digitsVal ds : Int)) : Int) : ℚ), rest)
      | [] => some (Json.num (((if neg then -(digitsVal ds : Int) else (digitsVal ds : Int)) : Int) : ℚ), [])

mutual

/-- JSON value, fuelled. -/
def parseVal : Nat → List Char → Option (Json × List Char)
  | 0, _ => none
  | fuel + 1, cs =>
    match skipWs cs with
    | [] => none
    | c :: rest =>
      if c = '"' then
        match parseStringChars (rest.length + 1) rest with
        | some (sc, r) => some (Json.str (String.mk sc), r)
        | none => none
      else if c = lbrace then
        match skipWs rest with
        | c2 :: r2 =>
          if c2 = rbrace then some (Json.obj [], r2)
          else
            match parseObjRest fuel (c2 :: r2) with
            | some (fs, r) => some (Json.obj fs, r)
            | none => none
        | [] => none
      else if c = '[' then
        match skipWs rest with
        | c2 :: r2 =>
          if c2 = ']' then some (Json.arr [], r2)
          else
            match parseArrRest fuel (c2 :: r2) with
            | some (es, r) => some (Json.arr es, r)
            | none => none
        | [] => none
      else if c = 'n' then
        if rest.take 3 = ['u', 'l', 'l'] then some (Json.null, rest.drop 3) else none
      else if c = 't' then
        if rest.take 3 = ['r', 'u', 'e'] then some (Json.bool true, rest.drop 3) else none
      else if c = 'f' then
        if rest.take 4 = ['a', 'l', 's', 'e'] then some (Json.bool false, rest.drop 4) else none
      else parseNumber (c :: rest)

/-- Elements of a non-empty JSON array after the opening bracket. -/
def parseArrRest : Nat → List Char → Option (List Json × List Char)
  | 0, _ => none
  | fuel + 1, cs =>
    match parseVal fuel cs with
    | some (j, r) =>
      match skipWs r with
      | c :: r2 =>
        if c = ',' then
          match parseArrRest fuel r2 with
          | some (js, r3) => some (j :: js, r3)
          | none => none
        else if c = ']' then some ([j], r2)
        else none
      | [] => none
    | none => none

/-- Fields of a non-empty JSON object after the opening brace. -/
def parseObjRest : Nat → List Char → Option (List (String × Json) × List Char)
  | 0, _ => none
  | fuel + 1, cs =>
    match skipWs cs with
    | c :: r =>
      if c = '"' then
        match parseStringChars (r.length + 1) r with
        | some (kc, r2) =>
          match skipWs r2 with
          | c2 :: r3 =>
            if c2 = ':' then
              match parseVal fuel r3 with
              | some (v, r4) =>
                match skipWs r4 with
                | c3 :: r5 =>
                  if c3 = ',' then
                    match parseObjRest fuel r5 with
                    | some (fs, r6) => some ((String.mk kc, v) :: fs, r6)
                    | none => none
                  else if c3 = rbrace then some ([(String.mk kc, v)], r5)
                  else none
                | [] => none
              | none => none
            else none
          | [] => none
        | none => none
      else none
    | [] => none

end

/-- Model of `JSON.parse`: parse one value, allow trailing whitespace only. -/
def jsonParse (s : String) : Option Json :=
  match parseVal (s.data.length + 1) s.data with
  | some (j, rest) => if skipWs rest = [] then some j else none
  | none => none

/-! ## The fetcher (`src/app.js`, `fetchYahooData` lines 154–187 and
`fetchYahooDataByPeriod` lines 192–225; the two differ only in the Yahoo
URL they build, which is outside the model). -/

/-- JS truthiness of a JSON value (`null`, `0`, `""` and `false` are falsy;
arrays and objects, even empty, are truthy). -/
def jsTruthy : Json → Bool
  | .null => false
  | .bool b => b
  | .num q => q != 0
  | .str s => s ≠ ""
  | .arr _ => true
  | .obj _ => true

/-- JS property access `o.k`: `none` models `undefined` (missing field, or
a non-object base). -/
def jsField : Json → String → Option Json
  | .obj fs, key => List.lookup key fs
  | _, _ => none

/-- JS indexing `a[0]` for the payload shapes in play: the head of a
non-empty array, `undefined` otherwise. -/
def jsIndex0 : Json → Option Json
  | .arr (x :: _) => some x
  | _ => none

/-- The series a successful endpoint returns:
`{ timestamps: result.timestamp || [], closes: result.indicators.quote[0].close || [] }`.
The source performs no validation of these two payloads (in particular no
length check), so they are kept as raw JSON values. -/
structure FetchResult where
  timestamps : Json
  closes : Json

/-- The body of the per-endpoint loop of `fetchYahooData` after a body was
obtained, app.js lines 172–178:

* `if (!data.chart?.result?.[0]) continue;`  — `none` models `continue`;
* reading `result.indicators.quote[0]` throws (and is caught, continuing)
  when any link of the chain is `undefined`;
* `result.timestamp || []` and `... .close || []` replace a missing or
  falsy field by an empty array. -/
def extractChart (data : Json) : Option FetchResult :=
  match ((jsField data "chart").bind (fun c => jsField c "result")).bind jsIndex0 with
  | none => none
  | some result =>
    if !jsTruthy result then none
    else
      match jsField result "indicators" with
      | none => none
      | some ind =>
        match jsField ind "quote" with
        | none => none
        | some quote =>
          match jsIndex0 quote with
          | none => none
          | some q0 =>
            some ⟨(match jsField result "timestamp" with
                   | some t => if jsTruthy t then t else Json.arr []
                   | none => Json.arr []),
                  (match jsField q0 "close" with
                   | some c => if jsTruthy c then c else Json.arr []
                   | none => Json.arr [])⟩

/-- Decoding of one endpoint's response body (app.js lines 164–170):
a wrapped proxy returns `{ contents: "<json string>" }` and the source runs
`JSON.parse(wrapper.contents)`; an unwrapped proxy's body is parsed
directly.  A non-string `contents` value always ends in the endpoint being
skipped in JS (either `JSON.parse` throws on the coerced string, or the
parsed scalar has no `chart` field), so it is modelled as a skip. -/
def processBody (wrapped : Bool) (body : String) : Option FetchResult :=
  if wrapped then
    match jsonParse body with
    | none => none
    | some wrapper =>
      match jsField wrapper "contents" with
      | some (Json.str s) =>
        match jsonParse s with
        | none => none
        | some data => extractChart data
      | some _ => none
      | none => none
  else
    match jsonParse body with
    | none => none
    | some data => extractChart data

/-- What one relay endpoint produced for this request: `failure` covers a
network error (`fetch` threw) and a non-success HTTP status
(`!response.ok`) — both make the loop continue — and `body` carries the
response text otherwise. -/
inductive RelayResponse where
  | failure
  | body (s : String)

/-- One iteration of the fallback loop: `none` means the endpoint is
skipped and the next one is tried. -/
def tryEndpoint (wrapped : Bool) (resp : RelayResponse) : Option FetchResult :=
  match resp with
  | .failure => none
  | .body s => processBody wrapped s

/-- Model of `fetchYahooData` (app.js lines 154–187): iterate the configured proxy
list in order (each entry paired here with that endpoint's response for
this request); return the first successfully decoded series, `null` when
every endpoint is exhausted.  `fetchYahooDataByPeriod` (lines 192–225) is
the same loop, differing only in the URL built. -/
def fetchYahooData : List (Bool × RelayResponse) → Option FetchResult
  | [] => none
  | (wrapped, resp) :: rest =>
    match tryEndpoint wrapped resp with
    | some r => some r
    | none => fetchYahooData rest

/-- The function `fetchYahooDataByPeriod` has the identical endpoint-fallback behaviour. -/
def fetchYahooDataByPeriod : List (Bool × RelayResponse) → Option FetchResult :=
  fetchYahooData

/-- The `wrapped` flags of `CORS_PROXIES` (app.js lines 21–25), in order. -/
def CORS_PROXIES_wrapped : List Bool := [false, true, false]

/-! ## The performance calculator (`src/unnamed/part_000`)

Timestamps are Unix seconds, modelled as `Int` (the quote API delivers
integer seconds); the absolute distance `Math.abs(timestamps[i] - target)`
is then the `Nat` given by `Int.natAbs`. -/

/-- The loop guard `closes[i] !== null` of `findClosestPrice`
(part_000 line 165).  In JS an out-of-range access yields `undefined`,
which is different from `null`, so an out-of-range index passes this test. -/
def notNullAt (closes : List (Option ℚ)) (i : Nat) : Bool :=
  closes[i]? != some none

/-- The scan loop of `findClosestPrice` (part_000 lines 160–169):
`best = none` is the initial `closestIndex = -1, closestDiff = Infinity`
state (every finite distance beats `Infinity`); `i` is the index of the
head of the remaining timestamp list. -/
def fcpGo (closes : List (Option ℚ)) (target : Int) :
    List Int → Nat → Option (Nat × Nat) → Option (Nat × Nat)
  | [], _, best => best
  | t :: ts, i, best =>
    fcpGo closes target ts (i + 1)
      (match best with
       | none => if notNullAt closes i then some (i, (t - target).natAbs) else none
       | some best1 =>
         if decide ((t - target).natAbs < best1.2) && notNullAt closes i then
           some (i, (t - target).natAbs)
         else some best1)

/-- Model of `findClosestPrice` (part_000 lines 159–177): after the scan, return
`closes[closestIndex]` only when an index was found and its distance is
strictly below the 5-day tolerance, else `null`.  The returned array
element is `undefined` when the selected index is past the end of
`closes` (possible when `timestamps` is the longer array). -/
def findClosestPrice (timestamps : List Int) (closes : List (Option ℚ))
    (targetTimestamp : Int) : JsVal :=
  match fcpGo closes targetTimestamp timestamps 0 none with
  | some best =>
    if best.2 < 5 * 24 * 60 * 60 then
      match closes[best.1]? with
      | some (some q) => .num q
      | some none => .jsNull
      | none => .undef
    else .jsNull
  | none => .jsNull

/-- The percentage formula
`((currentPrice - historicalPrice) / historicalPrice) * 100`
(part_000 line 146; the same shape at line 350 and app.js line 96 with the
respective price pairs). -/
def pctChange (historicalPrice currentPrice : ℚ) : ℚ :=
  (currentPrice - historicalPrice) / historicalPrice * 100

/-- One window of `calculatePerformance` (part_000 lines 142–150): look up
the closest price to the target and keep the window only when both prices
are truthy (`if (historicalPrice && currentPrice)`), else `null`. -/
def perfEntry (timestamps : List Int) (closes : List (Option ℚ))
    (currentPrice : JsVal) (target : Int) : Option ℚ :=
  if jsTruthyVal (findClosestPrice timestamps closes target) && jsTruthyVal currentPrice then
    some (pctChange (findClosestPrice timestamps closes target).numVal currentPrice.numVal)
  else none

/-- The configured window names, in insertion order (`PERIODS`,
part_000 line 24 and app.js line 28). -/
def PERIODS : List String := ["1d", "1w", "3m", "12m", "ytd"]

/-- Model of `calculatePerformance` (part_000 lines 118–154).  `now` is
`Date.now() / 1000` and `startOfYear` the epoch timestamp of January 1 of
the current year — both environment inputs, taken in whole seconds.  The
loop over the `periods` object visits the five windows in insertion order
and stores either a percentage or `null` for each. -/
def calculatePerformance (timestamps : List Int) (closes : List (Option ℚ))
    (currentPrice : JsVal) (now startOfYear : Int) : List (String × Option ℚ) :=
  [("1d", perfEntry timestamps closes currentPrice (now - 1 * (24 * 60 * 60))),
   ("1w", perfEntry timestamps closes currentPrice (now - 7 * (24 * 60 * 60))),
   ("3m", perfEntry timestamps closes currentPrice (now - 90 * (24 * 60 * 60))),
   ("12m", perfEntry timestamps closes currentPrice (now - 365 * (24 * 60 * 60))),
   ("ytd", perfEntry timestamps closes currentPrice startOfYear)]

/-! ## Formatting (`updateStockRow`, part_000 lines 182–197) -/

/-- Model of `x.toFixed(2)` for non-negative `x`: round to the nearest hundredth,
ties upward, and render with exactly two decimals. -/
def toFixed2Pos (x : ℚ) : String :=
  toString ((⌊x * 100 + 1 / 2⌋).toNat / 100) ++ "." ++
    (if (⌊x * 100 + 1 / 2⌋).toNat % 100 < 10 then "0" else "") ++
    toString ((⌊x * 100 + 1 / 2⌋).toNat % 100)

/-- Model of `value.toFixed(2)`: a negative value is rendered as the sign followed
by the rendering of its magnitude. -/
def toFixed2 (x : ℚ) : String :=
  if x < 0 then "-" ++ toFixed2Pos (-x) else toFixed2Pos x

/-- The cell text `(value >= 0 ? '+' : '') + value.toFixed(2) + '%'`
(part_000 line 188). -/
def formatPct (value : ℚ) : String :=
  (if 0 ≤ value then "+" else "") ++ toFixed2 value ++ "%"

/-! ## Custom-date performance (`fetchPerformanceSinceDate`,
part_000 lines 308–354 and app.js lines 356–390) -/

/-- The first-valid-close scan (`for (i = 0; ...) if (closes[i] !== null)
{ firstPrice = closes[i]; break; }`, part_000 lines 335–340). -/
def firstNonNull : List (Option ℚ) → Option ℚ
  | [] => none
  | none :: rest => firstNonNull rest
  | some q :: _ => some q

/-- The last-valid-close scan (part_000 lines 342–347), which walks the
array backwards. -/
def lastNonNull (closes : List (Option ℚ)) : Option ℚ :=
  firstNonNull closes.reverse

/-- Model of `fetchPerformanceSinceDate` of part_000 (lines 308–354), from the
point where the close array was extracted: `none` input models an absent
`close` field (`!closes` throws `Insufficient data`), as does a length
below 2; then the first and last valid closes are compared under the JS
truthiness test `if (firstPrice && lastPrice)`, with `null` returned when
either is absent or zero. -/
def fetchPerformanceSinceDate (closes : Option (List (Option ℚ))) :
    Except String (Option ℚ) :=
  match closes with
  | none => .error "Insufficient data"
  | some cl =>
    if cl.length < 2 then .error "Insufficient data"
    else
      match firstNonNull cl, lastNonNull cl with
      | some f, some l =>
        if f != 0 && l != 0 then .ok (some (pctChange f l)) else .ok none
      | _, _ => .ok none

/-- The app.js variant (lines 356–390): identical except that the guard is
`!data || !data.closes || data.closes.length < 1` with error `No data`. -/
def fetchPerformanceSinceDateApp (closes : Option (List (Option ℚ))) :
    Except String (Option ℚ) :=
  match closes with
  | none => .error "No data"
  | some cl =>
    if cl.length < 1 then .error "No data"
    else
      match firstNonNull cl, lastNonNull cl with
      | some f, some l =>
        if f != 0 && l != 0 then .ok (some (pctChange f l)) else .ok none
      | _, _ => .ok none

/-! ## The app.js per-symbol window computation (`fetchStockPerformance`,
app.js lines 79–149) -/

/-- The decoded, typed view of one fetched series, as destructured by
`const { timestamps: ts1m, closes: cl1m } = data1m`. -/
structure Series where
  timestamps : List Int
  closes : List (Option ℚ)
deriving DecidableEq, Repr

/-- One of the three period-parameter windows of `fetchStockPerformance`
(app.js lines 108–137): the window's entry is added only when the fetch
succeeded, the close array is non-empty, and
`closes.find(p => p !== null)` produced a truthy (nonzero) price. -/
def periodEntry (name : String) (currentPrice : JsVal) (data : Option Series) :
    List (String × JsNum) :=
  match data with
  | none => []
  | some d =>
    if 0 < d.closes.length then
      match firstNonNull d.closes with
      | some f => if f != 0 then [(name, jsPctChange currentPrice (.num f))] else []
      | none => []
    else []

/-- Model of `fetchStockPerformance` of app.js (lines 79–149), from the four fetch
results to the `performance` object stored into `performanceData[ticker]`
(`none` models the error path: when the 1-month fetch fails the function
returns after `updateStockRowError` and stores nothing).  `1d` and `1w`
entries are added only when the 1-month close array is long enough; the
JS arithmetic runs on the raw array elements, so an absent latest close is
coerced (`null` to 0, with `undefined` or a zero divisor giving a
non-finite artifact). -/
def fetchStockPerformanceApp (data1m data3m data12m dataYtd : Option Series) :
    Option (List (String × JsNum)) :=
  match data1m with
  | none => none
  | some d1 =>
    some ((((if 2 ≤ d1.closes.length then
                [("1d", jsPctChange (jsLastElem d1.closes)
                  (closeAt d1.closes (d1.closes.length - 2)))]
              else []) ++
            (if 6 ≤ d1.closes.length then
                [("1w", jsPctChange (jsLastElem d1.closes)
                  (closeAt d1.closes (d1.closes.length - 6)))]
              else [])) ++
           periodEntry "3m" (jsLastElem d1.closes) data3m ++
           periodEntry "12m" (jsLastElem d1.closes) data12m) ++
          periodEntry "ytd" (jsLastElem d1.closes) dataYtd)

/-! ## Specification-side view of the nearest-price scan

`fcpSpec` is a right-fold formulation of "the earliest index minimizing
the distance among the valid entries", used to characterize the
accumulator-based loop `fcpGo`. -/

/-- The absolute distance of entry `j` to the target. -/
def tdist (timestamps : List Int) (target : Int) (j : Nat) : Nat :=
  (timestamps.getD j 0 - target).natAbs

/-- Earliest minimal-distance valid entry of the timestamp list starting
at absolute index `i`, together with its distance. -/
def fcpSpec (closes : List (Option ℚ)) (target : Int) :
    List Int → Nat → Option (Nat × Nat)
  | [], _ => none
  | t :: ts, i =>
    if notNullAt closes i then
      match fcpSpec closes target ts (i + 1) with
      | none => some (i, (t - target).natAbs)
      | some best =>
        if (t - target).natAbs ≤ best.2 then some (i, (t - target).natAbs)
        else some best
    else fcpSpec closes target ts (i + 1)

/-- Merge a previously found best entry (earlier in scan order, so it wins
ties) with the best of a remaining segment. -/
def combineBest : Option (Nat × Nat) → Option (Nat × Nat) → Option (Nat × Nat)
  | b, none => b
  | none, some r => some r
  | some b, some r => if r.2 < b.2 then some r else some b

theorem combineBest_none_left (r : Option (Nat × Nat)) : combineBest none r = r := by
  cases r <;> rfl

/-- The scan loop computes the combination of its accumulator with the
earliest minimum of the remaining entries. -/
theorem fcpGo_eq (cl : List (Option ℚ)) (T : Int) :
    ∀ (ts : List Int) (i : Nat) (best : Option (Nat × Nat)),
      fcpGo cl T ts i best = combineBest best (fcpSpec cl T ts i) := by
  intro ts
  induction ts with
  | nil => intro i best; cases best <;> rfl
  | cons t ts ih =>
    intro i best
    simp only [fcpGo, fcpSpec]
    rw [ih]
    cases hv : notNullAt cl i with
    | false =>
      cases best with
      | none => simp [hv]
      | some b => simp [hv]
    | true =>
      cases best with
      | none =>
        cases hS : fcpSpec cl T ts (i + 1) with
        | none => simp [hv, hS, combineBest]
        | some r =>
          obtain ⟨k, e⟩ := r
          by_cases hde : (t - T).natAbs ≤ e
          · have h2 : ¬ e < (t - T).natAbs := by omega
            simp [hv, hS, combineBest, hde, h2]
          · have h2 : e < (t - T).natAbs := by omega
            simp [hv, hS, combineBest, hde, h2]
      | some b =>
        obtain ⟨j, c⟩ := b
        cases hS : fcpSpec cl T ts (i + 1) with
        | none =>
          by_cases h1 : (t - T).natAbs < c <;> simp [hv, hS, combineBest, h1]
        | some r =>
          obtain ⟨k, e⟩ := r
          by_cases h1 : (t - T).natAbs < c <;> by_cases h2 : (t - T).natAbs ≤ e
          · have h3 : ¬ e < (t - T).natAbs := by omega
            simp [hv, hS, combineBest, h1, h2, h3]
          · have h3 : e < (t - T).natAbs := by omega
            have h4 : e < c := by omega
            simp [hv, hS, combineBest, h1, h2, h3, h4]
          · have h3 : ¬ e < c := by omega
            simp [hv, hS, combineBest, h1, h2, h3]
          · simp [hv, hS, combineBest, h1, h2]

/-- The scan finds nothing exactly when no remaining index passes the
`closes[i] !== null` test. -/
theorem fcpSpec_none (cl : List (Option ℚ)) (T : Int) :
    ∀ (ts : List Int) (i : Nat),
      fcpSpec cl T ts i = none ↔ ∀ j, j < ts.length → notNullAt cl (i + j) = false := by
  intro ts
  induction ts with
  | nil => intro i; simp [fcpSpec]
  | cons t ts ih =>
    intro i
    simp only [fcpSpec]
    cases hv : notNullAt cl i with
    | true =>
      simp only [if_pos rfl]
      constructor
      · intro h
        exfalso
        cases hS : fcpSpec cl T ts (i + 1) with
        | none => rw [hS] at h; exact absurd h (by simp)
        | some r =>
          rw [hS] at h
          by_cases hr : (t - T).natAbs ≤ r.2 <;> simp [hr] at h
      · intro h
        exact absurd (h 0 (by simp)) (by simp [hv])
    | false =>
      simp only [Bool.false_eq_true, if_false]
      rw [ih (i + 1)]
      constructor
      · intro h j hj
        cases j with
        | zero => simpa using hv
        | succ j' =>
          have := h j' (by simpa using Nat.lt_of_succ_lt_succ hj)
          simpa [Nat.add_assoc, Nat.add_comm 1 j'] using this
      · intro h j hj
        have := h (j + 1) (by simpa using Nat.succ_lt_succ hj)
        simpa [Nat.add_assoc, Nat.add_comm 1 j] using this

/-- Characterization of a successful scan starting at absolute index `i`:
the selected index is in range and valid, carries its own distance, is
minimal among the valid indices of the segment, and strictly beats every
earlier valid index (the first-wins tie-break). -/
theorem fcpSpec_some (cl : List (Option ℚ)) (T : Int) :
    ∀ (ts : List Int) (i k d : Nat), fcpSpec cl T ts i = some (k, d) →
      i ≤ k ∧ k < i + ts.length ∧
      d = (ts.getD (k - i) 0 - T).natAbs ∧
      notNullAt cl k = true ∧
      (∀ j, j < ts.length → notNullAt cl (i + j) = true →
        d ≤ (ts.getD j 0 - T).natAbs) ∧
      (∀ j, j < ts.length → i + j < k → notNullAt cl (i + j) = true →
        d < (ts.getD j 0 - T).natAbs) := by
  intro ts
  induction ts with
  | nil => intro i k d h; simp [fcpSpec] at h
  | cons t ts ih =>
    intro i k d h
    simp only [fcpSpec] at h
    split at h
    · rename_i hv
      split at h
      · rename_i hS
        simp only [Option.some.injEq, Prod.mk.injEq] at h
        obtain ⟨hk, hd⟩ := h
        subst hk; subst hd
        refine ⟨Nat.le_refl _, by simp, by simp, hv, ?_, ?_⟩
        · intro j hj hvj
          cases j with
          | zero => simp
          | succ j' =>
            exfalso
            have hfalse := (fcpSpec_none cl T ts (i + 1)).mp hS j'
              (by simpa using Nat.lt_of_succ_lt_succ hj)
            rw [show i + 1 + j' = i + (j' + 1) by omega] at hfalse
            simp [hfalse] at hvj
        · intro j hj hjk hvj
          omega
      · rename_i best hS
        obtain ⟨k', e⟩ := best
        obtain ⟨h1, h2, h3, h4, h5, h6⟩ := ih (i + 1) k' e hS
        split at h
        · rename_i hle
          simp only [Option.some.injEq, Prod.mk.injEq] at h
          obtain ⟨hk, hd⟩ := h
          subst hk; subst hd
          simp only at hle
          refine ⟨Nat.le_refl _, by simp, by simp, hv, ?_, ?_⟩
          · intro j hj hvj
            cases j with
            | zero => simp
            | succ j' =>
              have := h5 j' (by simpa using Nat.lt_of_succ_lt_succ hj)
                (by rw [show i + 1 + j' = i + (j' + 1) by omega]; exact hvj)
              simp only [List.getD_cons_succ]
              omega
          · intro j hj hjk hvj
            omega
        · rename_i hle
          simp only [Option.some.injEq, Prod.mk.injEq] at h
          obtain ⟨hk, hd⟩ := h
          subst hk; subst hd
          simp only at hle
          refine ⟨by omega, by simp only [List.length_cons]; omega, ?_, h4, ?_, ?_⟩
          · rw [show k' - i = (k' - (i + 1)) + 1 by omega, List.getD_cons_succ]
            exact h3
          · intro j hj hvj
            cases j with
            | zero =>
              simp only [List.getD_cons_zero]
              omega
            | succ j' =>
              have := h5 j' (by simpa using Nat.lt_of_succ_lt_succ hj)
                (by rw [show i + 1 + j' = i + (j' + 1) by omega]; exact hvj)
              simpa using this
          · intro j hj hjk hvj
            cases j with
            | zero =>
              simp only [List.getD_cons_zero]
              omega
            | succ j' =>
              have := h6 j' (by simpa using Nat.lt_of_succ_lt_succ hj)
                (by omega)
                (by rw [show i + 1 + j' = i + (j' + 1) by omega]; exact hvj)
              simpa using this
    · rename_i hv
      simp only [Bool.not_eq_true] at hv
      obtain ⟨h1, h2, h3, h4, h5, h6⟩ := ih (i + 1) k d h
      refine ⟨by omega, by simp only [List.length_cons]; omega, ?_, h4, ?_, ?_⟩
      · rw [show k - i = (k - (i + 1)) + 1 by omega, List.getD_cons_succ]
        exact h3
      · intro j hj hvj
        cases j with
        | zero => simp [hv] at hvj
        | succ j' =>
          have := h5 j' (by simpa using Nat.lt_of_succ_lt_succ hj)
            (by rw [show i + 1 + j' = i + (j' + 1) by omega]; exact hvj)
          simpa using this
      · intro j hj hjk hvj
        cases j with
        | zero => simp [hv] at hvj
        | succ j' =>
          have := h6 j' (by simpa using Nat.lt_of_succ_lt_succ hj)
            (by omega)
            (by rw [show i + 1 + j' = i + (j' + 1) by omega]; exact hvj)
          simpa using this

/-- Rewriting of `findClosestPrice` in terms of the specification-side scan. -/
theorem findClosestPrice_eq (ts : List Int) (cl : List (Option ℚ)) (T : Int) :
    findClosestPrice ts cl T =
      (match fcpSpec cl T ts 0 with
       | some best =>
         if best.2 < 5 * 24 * 60 * 60 then
           (match cl[best.1]? with
            | some (some q) => JsVal.num q
            | some none => JsVal.jsNull
            | none => JsVal.undef)
         else JsVal.jsNull
       | none => JsVal.jsNull) := by
  unfold findClosestPrice
  rw [fcpGo_eq, combineBest_none_left]

/-- The property claimed of the lookup: index `k` is in range, its close
is present, its distance to the target is minimal among all in-range
entries with a present close, and every earlier such entry is strictly
farther (so the earliest of the equidistant entries is the one selected). -/
def IsFirstMin (timestamps : List Int) (closes : List (Option ℚ))
    (target : Int) (k : Nat) : Prop :=
  k < timestamps.length ∧ notNullAt closes k = true ∧
  (∀ j, j < timestamps.length → notNullAt closes j = true →
    tdist timestamps target k ≤ tdist timestamps target j) ∧
  (∀ j, j < k → notNullAt closes j = true →
    tdist timestamps target k < tdist timestamps target j)

/-- The scan selects exactly the first minimal valid entry. -/
theorem fcpSpec_firstmin (ts : List Int) (cl : List (Option ℚ)) (T : Int)
    (k : Nat) (hk : IsFirstMin ts cl T k) :
    fcpSpec cl T ts 0 = some (k, tdist ts T k) := by
  obtain ⟨hklen, hkval, hkmin, hkstrict⟩ := hk
  cases hS : fcpSpec cl T ts 0 with
  | none =>
    exfalso
    have := (fcpSpec_none cl T ts 0).mp hS k hklen
    rw [Nat.zero_add] at this
    simp [this] at hkval
  | some p =>
    obtain ⟨k', d⟩ := p
    obtain ⟨_, h2, h3, h4, h5, h6⟩ := fcpSpec_some cl T ts 0 k' d hS
    rw [Nat.zero_add] at h2
    rw [Nat.sub_zero] at h3
    have hd : d = tdist ts T k' := h3
    have h5' : ∀ j, j < ts.length → notNullAt cl j = true → d ≤ tdist ts T j := by
      intro j hj hvj
      have := h5 j hj (by rwa [Nat.zero_add])
      exact this
    have h6' : ∀ j, j < ts.length → j < k' → notNullAt cl j = true → d < tdist ts T j := by
      intro j hj hjk hvj
      have := h6 j hj (by rwa [Nat.zero_add]) (by rwa [Nat.zero_add])
      exact this
    have hkk : k' = k := by
      rcases Nat.lt_trichotomy k k' with hlt | heq | hgt
      · exfalso
        have hstrict := h6' k hklen hlt hkval
        have hmin := hkmin k' h2 h4
        rw [hd] at hstrict
        omega
      · exact heq.symm
      · exfalso
        have hstrict := hkstrict k' hgt h4
        have hmin := h5' k hklen hkval
        rw [hd] at hmin
        omega
    subst hkk
    rw [hd]

/-! ## Shared helper lemmas and concrete response bodies -/

/-- A chart body whose `timestamp` array (3 entries) is longer than its
`close` array (1 entry) — decodable, but not length-consistent. -/
def chartBodyA : String :=
  "\x7b\"chart\":\x7b\"result\":[\x7b\"timestamp\":[1,2,3],\"indicators\":\x7b\"quote\":[\x7b\"close\":[5]\x7d]\x7d\x7d]\x7d\x7d"

/-- A well-formed chart body: one timestamp, one close. -/
def chartBodyB : String :=
  "\x7b\"chart\":\x7b\"result\":[\x7b\"timestamp\":[10],\"indicators\":\x7b\"quote\":[\x7b\"close\":[7]\x7d]\x7d\x7d]\x7d\x7d"

/-- The body `chartBodyB` as the JSON-encoded `contents` string of a wrapped relay
envelope (the `allorigins.win/get` shape). -/
def allOriginsBody : String :=
  "\x7b\"contents\":\"\x7b\\\"chart\\\":\x7b\\\"result\\\":[\x7b\\\"timestamp\\\":[10],\\\"indicators\\\":\x7b\\\"quote\\\":[\x7b\\\"close\\\":[7]\x7d]\x7d\x7d]\x7d\x7d\"\x7d"

/-- The inner string carried by `allOriginsBody`. -/
def innerChartBody : String :=
  "\x7b\"chart\":\x7b\"result\":[\x7b\"timestamp\":[10],\"indicators\":\x7b\"quote\":[\x7b\"close\":[7]\x7d]\x7d\x7d]\x7d\x7d"

/-- Modelled from the spec: "the series obtained by parsing the inner
string directly" — parse the string with one `JSON.parse` and extract the
chart series from the result. -/
def decodeDirect (s : String) : Option FetchResult :=
  match jsonParse s with
  | none => none
  | some data => extractChart data

theorem perfEntry_cp_falsy (ts : List Int) (cl : List (Option ℚ)) (cp : JsVal)
    (target : Int) (h : jsTruthyVal cp = false) : perfEntry ts cl cp target = none := by
  simp [perfEntry, h]

theorem perfEntry_fcp_not_num (ts : List Int) (cl : List (Option ℚ)) (cp : JsVal)
    (target : Int) (h : ∀ q, findClosestPrice ts cl target ≠ JsVal.num q) :
    perfEntry ts cl cp target = none := by
  cases hfc : findClosestPrice ts cl target with
  | num q => exact absurd hfc (h q)
  | undef => simp [perfEntry, hfc, jsTruthyVal]
  | jsNull => simp [perfEntry, hfc, jsTruthyVal]

theorem findClosestPrice_absent (ts : List Int) (cl : List (Option ℚ)) (T : Int)
    (h : ∀ x ∈ cl, x = none) : ∀ q, findClosestPrice ts cl T ≠ JsVal.num q := by
  intro q hq
  rw [findClosestPrice_eq] at hq
  cases hS : fcpSpec cl T ts 0 with
  | none => rw [hS] at hq; simp at hq
  | some p =>
    obtain ⟨k', d⟩ := p
    by_cases hlt : d < 5 * 24 * 60 * 60
    · cases hx : cl[k']? with
      | none => simp [hS, hlt, hx] at hq
      | some x =>
        cases x with
        | none => simp [hS, hlt, hx] at hq
        | some q' =>
          have := h (some q') (List.getElem?_mem hx)
          simp at this
    · simp [hS, hlt] at hq

theorem lookup_append_of_none {α β : Type} [BEq α] (a : α) (l1 l2 : List (α × β))
    (h : List.lookup a l1 = none) : List.lookup a (l1 ++ l2) = List.lookup a l2 := by
  induction l1 with
  | nil => rfl
  | cons p l ih =>
    obtain ⟨x, v⟩ := p
    rw [List.cons_append]
    simp only [List.lookup] at h ⊢
    cases hax : a == x with
    | true => simp [hax] at h
    | false =>
      simp only [hax] at h ⊢
      exact ih h

theorem lookup_periodEntry_ne (a name : String) (cp : JsVal) (data : Option Series)
    (h : (a == name) = false) : List.lookup a (periodEntry name cp data) = none := by
  cases data with
  | none => rfl
  | some d =>
    simp only [periodEntry]
    split
    · cases hf : firstNonNull d.closes with
      | none => rfl
      | some f =>
        simp only []
        by_cases hf0 : (f != 0) = true
        · rw [if_pos hf0]
          simp only [List.lookup]
          rw [h]
        · rw [if_neg hf0]; rfl
    · rfl

/-- The shared first/last-valid comparison of the two custom-date
variants only produces a number when both scans found a nonzero price. -/
theorem firstLast_ok (cl : List (Option ℚ)) (v : ℚ)
    (h : (match firstNonNull cl, lastNonNull cl with
          | some f, some l =>
            if f != 0 && l != 0 then
              (Except.ok (some (pctChange f l)) : Except String (Option ℚ))
            else Except.ok none
          | _, _ => Except.ok none) = Except.ok (some v)) :
    ∃ f l, firstNonNull cl = some f ∧ lastNonNull cl = some l ∧
      f ≠ 0 ∧ l ≠ 0 ∧ v = pctChange f l := by
  cases hf : firstNonNull cl with
  | none => simp [hf] at h
  | some f =>
    cases hl : lastNonNull cl with
    | none => simp [hf, hl] at h
    | some l =>
      simp only [hf, hl] at h
      by_cases hcond : (f != 0 && l != 0) = true
      · rw [if_pos hcond] at h
        simp only [Except.ok.injEq, Option.some.injEq] at h
        rw [Bool.and_eq_true, bne_iff_ne, bne_iff_ne] at hcond
        exact ⟨f, l, rfl, rfl, hcond.1, hcond.2, h.symm⟩
      · rw [if_neg hcond] at h
        simp at h

/-! ## Claim theorems -/

/-- C1: for every series given as parallel timestamp and close arrays and
every target timestamp, `findClosestPrice` returns the close of the entry
minimizing the absolute distance to the target among entries whose close
is not `null` (the earlier-indexed entry winning ties), and returns `null`
when no such entry exists or when the minimum distance is at least
5 × 86400 seconds. -/
theorem findClosestPrice_correct (ts : List Int) (cl : List (Option ℚ)) (T : Int)
    (hlen : ts.length = cl.length) :
    (∀ k q, IsFirstMin ts cl T k → cl[k]? = some (some q) →
      (tdist ts T k < 5 * 24 * 60 * 60 → findClosestPrice ts cl T = JsVal.num q) ∧
      (5 * 24 * 60 * 60 ≤ tdist ts T k → findClosestPrice ts cl T = JsVal.jsNull)) ∧
    ((∀ j, j < ts.length → notNullAt cl j = false) →
      findClosestPrice ts cl T = JsVal.jsNull) := by
  constructor
  · intro k q hk hq
    have hS := fcpSpec_firstmin ts cl T k hk
    rw [findClosestPrice_eq, hS]
    constructor
    · intro hlt
      simp [hlt, hq]
    · intro hge
      simp [Nat.not_lt.mpr hge]
  · intro hnone
    rw [findClosestPrice_eq]
    cases hS : fcpSpec cl T ts 0 with
    | none => rfl
    | some p =>
      exfalso
      obtain ⟨k', d⟩ := p
      obtain ⟨_, h2, _, h4, _, _⟩ := fcpSpec_some cl T ts 0 k' d hS
      rw [Nat.zero_add] at h2
      have := hnone k' h2
      simp [this] at h4

theorem findClosestPrice_correct_w :
    findClosestPrice [0, 86400] [some 10, some 20] 0 = JsVal.num 10 := by
  refine ((findClosestPrice_correct [0, 86400] [some 10, some 20] 0 (by decide)).1 0 10
    ⟨by decide, by decide, ?_, ?_⟩ (by decide)).1 (by decide)
  · intro j hj hvj
    have h0 : tdist [0, 86400] 0 0 = 0 := by decide
    rw [h0]
    exact Nat.zero_le _
  · intro j hj hvj
    omega

/-- C9: with parallel arrays, `findClosestPrice` yields `null` or a
non-`null` element of the close array; but when the timestamp array is
longer, an out-of-range index can be selected (its `undefined` close
passes the `!== null` test) and the JS `undefined` value is returned. -/
theorem findClosestPrice_safety :
    (∀ (ts : List Int) (cl : List (Option ℚ)) (T : Int), ts.length = cl.length →
      findClosestPrice ts cl T = JsVal.jsNull ∨
        ∃ q, findClosestPrice ts cl T = JsVal.num q ∧ some q ∈ cl) ∧
    findClosestPrice [100000, 0] [some 5] 0 = JsVal.undef := by
  constructor
  · intro ts cl T hlen
    rw [findClosestPrice_eq]
    cases hS : fcpSpec cl T ts 0 with
    | none => left; rfl
    | some p =>
      obtain ⟨k', d⟩ := p
      obtain ⟨_, h2, _, h4, _, _⟩ := fcpSpec_some cl T ts 0 k' d hS
      rw [Nat.zero_add] at h2
      by_cases hlt : d < 5 * 24 * 60 * 60
      · cases hx : cl[k']? with
        | none =>
          exfalso
          rw [List.getElem?_eq_none_iff] at hx
          omega
        | some x =>
          cases x with
          | none =>
            exfalso
            simp [notNullAt, hx] at h4
          | some q =>
            right
            refine ⟨q, ?_, List.getElem?_mem hx⟩
            simp [hlt, hx]
      · left
        simp [hlt]
  · decide

theorem findClosestPrice_safety_w :
    findClosestPrice [0] [some 3] 0 = JsVal.jsNull ∨
      ∃ q, findClosestPrice [0] [some 3] 0 = JsVal.num q ∧ some q ∈ [some 3] :=
  findClosestPrice_safety.1 [0] [some 3] 0 (by decide)

/-- C6: an empty series yields `null` for every configured window with no
exception; an all-absent series likewise; and a single-point series
yields `null` for a window whose target is at least the 5-day tolerance
away from that point. -/
theorem calculatePerformance_degenerate :
    (∀ (cp : JsVal) (now soy : Int),
      calculatePerformance [] [] cp now soy =
        [("1d", none), ("1w", none), ("3m", none), ("12m", none), ("ytd", none)]) ∧
    (∀ (ts : List Int) (cl : List (Option ℚ)) (cp : JsVal) (now soy : Int),
      (∀ x ∈ cl, x = none) →
      ∀ e ∈ calculatePerformance ts cl cp now soy, e.2 = none) ∧
    (∀ (t : Int) (c : Option ℚ) (cp : JsVal) (target : Int),
      5 * 24 * 60 * 60 ≤ (t - target).natAbs →
      perfEntry [t] [c] cp target = none) := by
  refine ⟨?_, ?_, ?_⟩
  · intro cp now soy
    simp [calculatePerformance, perfEntry, findClosestPrice, fcpGo, jsTruthyVal]
  · intro ts cl cp now soy habs e he
    simp only [calculatePerformance, List.mem_cons, List.not_mem_nil, or_false] at he
    rcases he with rfl | rfl | rfl | rfl | rfl <;>
      exact perfEntry_fcp_not_num _ _ _ _ (findClosestPrice_absent _ _ _ habs)
  · intro t c cp target htol
    have hfc : findClosestPrice [t] [c] target = JsVal.jsNull := by
      rw [findClosestPrice_eq]
      simp only [fcpSpec]
      cases hv : notNullAt [c] 0 with
      | true => simp [Nat.not_lt.mpr htol]
      | false => simp
    simp [perfEntry, hfc, jsTruthyVal]

theorem calculatePerformance_degenerate_w :
    perfEntry [0] [some 7] (JsVal.num 3) 432000 = none :=
  calculatePerformance_degenerate.2.2 0 (some 7) (JsVal.num 3) 432000 (by decide)

/-- C4 (amended): the price compared against each window's historical
match is the literal last element of the close array (`closes[length-1]`),
not the last non-absent close; in part_000 a window's value is a
percentage only when both that element and the matched historical price
are present and nonzero, and otherwise the window is `null` — in
particular every window is `null` whenever the series ends in an absent
close. -/
theorem calculatePerformance_latest :
    (∀ (ts : List Int) (cl : List (Option ℚ)) (cp : JsVal) (target : Int),
      perfEntry ts cl cp target = none ∨
      ∃ hq cq, findClosestPrice ts cl target = JsVal.num hq ∧ hq ≠ 0 ∧
        cp = JsVal.num cq ∧ cq ≠ 0 ∧
        perfEntry ts cl cp target = some (pctChange hq cq)) ∧
    (∀ (ts : List Int) (cl : List (Option ℚ)) (now soy : Int),
      cl.getLast? = some none →
      ∀ e ∈ calculatePerformance ts cl (jsLastElem cl) now soy, e.2 = none) := by
  constructor
  · intro ts cl cp target
    cases hfc : findClosestPrice ts cl target with
    | undef => left; simp [perfEntry, hfc, jsTruthyVal]
    | jsNull => left; simp [perfEntry, hfc, jsTruthyVal]
    | num hq =>
      by_cases hq0 : hq = 0
      · left; simp [perfEntry, hfc, jsTruthyVal, hq0]
      · cases cp with
        | undef => left; simp [perfEntry, jsTruthyVal]
        | jsNull => left; simp [perfEntry, jsTruthyVal]
        | num cq =>
          by_cases hcq : cq = 0
          · left; simp [perfEntry, jsTruthyVal, hcq]
          · right
            refine ⟨hq, cq, rfl, hq0, rfl, hcq, ?_⟩
            simp [perfEntry, hfc, jsTruthyVal, hq0, hcq, JsVal.numVal]
  · intro ts cl now soy hlast e he
    have hnull : jsTruthyVal (jsLastElem cl) = false := by
      simp [jsLastElem, hlast, jsTruthyVal]
    simp only [calculatePerformance, List.mem_cons, List.not_mem_nil, or_false] at he
    rcases he with rfl | rfl | rfl | rfl | rfl <;>
      exact perfEntry_cp_falsy _ _ _ _ hnull

theorem calculatePerformance_latest_w :
    (("1d", (none : Option ℚ))).2 = none :=
  calculatePerformance_latest.2 [0] [none] 0 0 (by decide) ("1d", none) (by decide)

/-- C4 counterexample: a series whose last element is absent.  The 1-day
window has a matched historical price (100, within tolerance) and the last
non-absent close is 100, so the claim predicts 0%; the code instead
compares against the literal last element (`null`) and stores `null`. -/
theorem calculatePerformance_latest_cex :
    List.lookup "1d" (calculatePerformance [0, 86400] [some 100, none]
        (jsLastElem [some 100, none]) (2 * 86400) 0) = some none ∧
    lastNonNull [some 100, none] = some 100 ∧
    findClosestPrice [0, 86400] [some 100, none] (2 * 86400 - 1 * (24 * 60 * 60)) =
      JsVal.num 100 :=
  ⟨by decide, by decide, by decide⟩

/-- C2 (amended): in the part_000 variant `calculatePerformance` always
returns exactly one entry per configured window; in the app.js variant a
window key is present only when its computation was possible (`1d`
requires at least two 1-month closes) and on total fetch failure no
mapping is stored at all. -/
theorem performance_window_keys :
    (∀ (ts : List Int) (cl : List (Option ℚ)) (cp : JsVal) (now soy : Int),
      (calculatePerformance ts cl cp now soy).map Prod.fst = PERIODS) ∧
    (∀ (d1 : Series) (d3 d12 dy : Option Series) (r : List (String × JsNum)),
      fetchStockPerformanceApp (some d1) d3 d12 dy = some r →
      (2 ≤ d1.closes.length →
        List.lookup "1d" r = some (jsPctChange (jsLastElem d1.closes)
          (closeAt d1.closes (d1.closes.length - 2)))) ∧
      (d1.closes.length < 2 → List.lookup "1d" r = none)) ∧
    (∀ d3 d12 dy, fetchStockPerformanceApp none d3 d12 dy = none) := by
  refine ⟨?_, ?_, ?_⟩
  · intro ts cl cp now soy; rfl
  · intro d1 d3 d12 dy r hr
    simp only [fetchStockPerformanceApp, Option.some.injEq] at hr
    subst hr
    constructor
    · intro h2
      rw [if_pos h2]
      simp only [List.cons_append, List.nil_append, List.append_assoc]
      simp [List.lookup]
    · intro h2
      rw [if_neg (by omega), if_neg (by omega)]
      simp only [List.nil_append, List.append_assoc]
      rw [lookup_append_of_none _ _ _ (lookup_periodEntry_ne _ _ _ _ (by decide))]
      rw [lookup_append_of_none _ _ _ (lookup_periodEntry_ne _ _ _ _ (by decide))]
      exact lookup_periodEntry_ne _ _ _ _ (by decide)
  · intro d3 d12 dy; rfl

theorem performance_window_keys_w :
    List.lookup "1d" ([] : List (String × JsNum)) = none :=
  (performance_window_keys.2.1 ⟨[5], [some 100]⟩ none none none [] (by decide)).2
    (by decide)

/-- C2 counterexample: a successful fetch whose 1-month series has a
single close produces a stored mapping with no `1d` entry at all (and none
of the other windows either), refuting "exactly one entry per window even
when the series is too short". -/
theorem performance_window_keys_cex :
    (fetchStockPerformanceApp (some ⟨[5], [some 100]⟩) none none none).map
      (fun l => List.lookup "1d" l) = some none := by decide

/-- C3 (amended): the relay endpoints are tried in configured order; an
endpoint is skipped exactly when it fails (network error or bad status)
or its body does not decode to a payload with a truthy `chart.result[0]`
and a reachable `indicators.quote[0]`; the first endpoint that decodes is
returned immediately — with missing `timestamp`/`close` fields defaulted
to empty arrays and with no check that the two arrays have matching
length — the endpoints after it are never consulted, and when every
endpoint fails the fetcher returns explicit `null` instead of throwing. -/
theorem fetchYahooData_fallback :
    (∀ eps : List (Bool × RelayResponse),
      (∀ e ∈ eps, tryEndpoint e.1 e.2 = none) → fetchYahooData eps = none) ∧
    (∀ (pre : List (Bool × RelayResponse)) (e : Bool × RelayResponse)
        (rest : List (Bool × RelayResponse)) (r : FetchResult),
      (∀ x ∈ pre, tryEndpoint x.1 x.2 = none) → tryEndpoint e.1 e.2 = some r →
      fetchYahooData (pre ++ e :: rest) = some r) := by
  constructor
  · intro eps
    induction eps with
    | nil => intro _; rfl
    | cons e tl ih =>
      intro h
      obtain ⟨w, resp⟩ := e
      have he : tryEndpoint w resp = none := h (w, resp) (List.mem_cons_self _ _)
      simp only [fetchYahooData, he]
      exact ih (fun x hx => h x (List.mem_cons_of_mem _ hx))
  · intro pre e rest r
    induction pre with
    | nil =>
      intro _ hsucc
      obtain ⟨w, resp⟩ := e
      have hs : tryEndpoint w resp = some r := hsucc
      simp only [List.nil_append, fetchYahooData, hs]
    | cons p tl ih =>
      intro hpre hsucc
      obtain ⟨w, resp⟩ := p
      have hp : tryEndpoint w resp = none := hpre (w, resp) (List.mem_cons_self _ _)
      simp only [List.cons_append, fetchYahooData, hp]
      exact ih (fun x hx => hpre x (List.mem_cons_of_mem _ hx)) hsucc

theorem fetchYahooData_fallback_w :
    fetchYahooData [(false, RelayResponse.failure),
      (false, RelayResponse.body chartBodyB), (false, RelayResponse.failure)] =
      some ⟨Json.arr [Json.num 10], Json.arr [Json.num 7]⟩ :=
  fetchYahooData_fallback.2 [(false, RelayResponse.failure)]
    (false, RelayResponse.body chartBodyB) [(false, RelayResponse.failure)]
    ⟨Json.arr [Json.num 10], Json.arr [Json.num 7]⟩
    (by
      intro x hx
      simp only [List.mem_singleton] at hx
      subst hx
      rfl)
    (by rfl)

/-- C3 counterexample: the first endpoint's payload decodes to a series
with three timestamps but a single close — not a "well-formed series (a
timestamp array and a matching-length close array)" — yet it is returned,
and the second endpoint, which holds a genuinely well-formed but different
series, is never used. -/
theorem fetchYahooData_fallback_cex :
    fetchYahooData [(false, RelayResponse.body chartBodyA),
        (false, RelayResponse.body chartBodyB)] =
      some ⟨Json.arr [Json.num 1, Json.num 2, Json.num 3], Json.arr [Json.num 5]⟩ ∧
    processBody false chartBodyB =
      some ⟨Json.arr [Json.num 10], Json.arr [Json.num 7]⟩ :=
  ⟨rfl, rfl⟩

/-- C7: with the wrapped flag set, the fetcher performs exactly one extra
JSON decode of the envelope's `contents` string, and the extracted series
coincides with the one obtained by parsing that inner string directly
(which is also precisely the unwrapped decode path applied to it). -/
theorem wrapped_unwrap (body s : String) (w : Json)
    (hb : jsonParse body = some w)
    (hc : jsField w "contents" = some (Json.str s)) :
    processBody true body = decodeDirect s ∧ processBody false s = decodeDirect s := by
  constructor
  · simp only [processBody, decodeDirect, hb, hc, if_true]
  · rfl

theorem wrapped_unwrap_w :
    (processBody true allOriginsBody = decodeDirect innerChartBody ∧
      processBody false innerChartBody = decodeDirect innerChartBody) ∧
    decodeDirect innerChartBody =
      some ⟨Json.arr [Json.num 10], Json.arr [Json.num 7]⟩ :=
  ⟨wrapped_unwrap allOriginsBody innerChartBody
      (Json.obj [("contents", Json.str innerChartBody)]) rfl rfl,
    rfl⟩

/-- C5 (amended): the custom-date computation reports the percentage
change from the first to the last non-absent close of the fetched series
(`[50, null, 60]` gives `+20.00%`), and fails explicitly when the close
array has fewer than two entries; but with at least two entries it does
not fail on having fewer than two usable (non-absent) points — a single
usable point yields a silent `0%` (or `null` when it is absent/zero),
not an error. -/
theorem fetchPerformanceSinceDate_spec :
    (∀ cl : List (Option ℚ), cl.length < 2 →
      fetchPerformanceSinceDate (some cl) = Except.error "Insufficient data") ∧
    (fetchPerformanceSinceDate none = Except.error "Insufficient data") ∧
    (∀ (cl : List (Option ℚ)) (f l : ℚ), 2 ≤ cl.length →
      firstNonNull cl = some f → lastNonNull cl = some l → f ≠ 0 → l ≠ 0 →
      fetchPerformanceSinceDate (some cl) = Except.ok (some (pctChange f l))) ∧
    (fetchPerformanceSinceDate (some [some 50, none, some 60]) =
        Except.ok (some 20) ∧
      formatPct 20 = "+20.00%") := by
  refine ⟨?_, rfl, ?_, ?_, ?_⟩
  · intro cl h
    simp [fetchPerformanceSinceDate, h]
  · intro cl f l h2 hf hl hf0 hl0
    simp [fetchPerformanceSinceDate, Nat.not_lt.mpr h2, hf, hl, hf0, hl0]
  · norm_num [fetchPerformanceSinceDate, firstNonNull, lastNonNull, pctChange]
  · norm_num [formatPct, toFixed2, toFixed2Pos]
    rfl

theorem fetchPerformanceSinceDate_spec_w :
    fetchPerformanceSinceDate (some [some 50, some 60]) =
      Except.ok (some (pctChange 50 60)) :=
  fetchPerformanceSinceDate_spec.2.2.1 [some 50, some 60] 50 60 (by decide) rfl rfl
    (by norm_num) (by norm_num)

/-- C5 counterexample: `[null, 50]` has two entries but a single usable
point; the function does not fail — it silently returns `0%`. -/
theorem fetchPerformanceSinceDate_spec_cex :
    fetchPerformanceSinceDate (some [none, some 50]) = Except.ok (some 0) ∧
    (List.filterMap id [none, some 50] : List ℚ).length = 1 := by
  constructor
  · norm_num [fetchPerformanceSinceDate, firstNonNull, lastNonNull, pctChange]
  · rfl

/-- C10: a first or last valid close equal to exactly 0 fails the final
truthiness test, so the custom-date computation returns `null` instead of
dividing; and whenever a number is returned, the divisor was the nonzero
first valid close — never an `Infinity`/`NaN` artifact. -/
theorem fetchPerformanceSinceDate_zero :
    (∀ cl : List (Option ℚ), 2 ≤ cl.length →
      (firstNonNull cl = some 0 ∨ lastNonNull cl = some 0) →
      fetchPerformanceSinceDate (some cl) = Except.ok none) ∧
    (∀ (cl : List (Option ℚ)) (v : ℚ),
      fetchPerformanceSinceDate (some cl) = Except.ok (some v) →
      ∃ f l, firstNonNull cl = some f ∧ lastNonNull cl = some l ∧
        f ≠ 0 ∧ l ≠ 0 ∧ v = pctChange f l) ∧
    (∀ (cl : List (Option ℚ)) (v : ℚ),
      fetchPerformanceSinceDateApp (some cl) = Except.ok (some v) →
      ∃ f l, firstNonNull cl = some f ∧ lastNonNull cl = some l ∧
        f ≠ 0 ∧ l ≠ 0 ∧ v = pctChange f l) := by
  refine ⟨?_, ?_, ?_⟩
  · intro cl h2 h0
    simp only [fetchPerformanceSinceDate]
    rw [if_neg (by omega : ¬ cl.length < 2)]
    cases hf : firstNonNull cl with
    | none => rfl
    | some f =>
      cases hl : lastNonNull cl with
      | none => rfl
      | some l =>
        simp only []
        rcases h0 with h0 | h0
        · rw [hf] at h0
          injection h0 with h0
          subst h0
          simp
        · rw [hl] at h0
          injection h0 with h0
          subst h0
          simp
  · intro cl v h
    simp only [fetchPerformanceSinceDate] at h
    split at h
    · exact Except.noConfusion h
    · exact firstLast_ok cl v h
  · intro cl v h
    simp only [fetchPerformanceSinceDateApp] at h
    split at h
    · exact Except.noConfusion h
    · exact firstLast_ok cl v h

theorem fetchPerformanceSinceDate_zero_w :
    fetchPerformanceSinceDate (some [some 0, some 60]) = Except.ok none :=
  fetchPerformanceSinceDate_zero.1 [some 0, some 60] (by decide) (Or.inl rfl)

/-- C8: the percentage formula combined with the cell formatting renders
the historical/latest pair (100, 110) as exactly "+10.00%" and (100, 90)
as exactly "-10.00%". -/
theorem percent_format_roundtrip :
    formatPct (pctChange 100 110) = "+10.00%" ∧
    formatPct (pctChange 100 90) = "-10.00%" := by
  constructor
  · norm_num [formatPct, toFixed2, toFixed2Pos, pctChange]
    rfl
  · norm_num [formatPct, toFixed2, toFixed2Pos, pctChange]
    rfl
